import Mathlib

/-!
Verification of the meal-planner core (`src/recipes/services.py`):
the week-boundary resolver (`start_of_week`, `parse_week_start`) and the
weekly plan generator (`generate_weekly_plan`).

The service code is written over Python's standard library
(`datetime.date`, `calendar.day_name`, `random.choice`).  Those primitives
are not part of the repository, so they are embedded here with their
documented semantics: dates are proleptic-Gregorian (year, month, day)
triples, `date.weekday()` is zero-based with Monday = 0, `date + timedelta`
is calendar-day succession, `date.isoformat()` prints `YYYY-MM-DD`, and
`random.choice(seq)` returns `seq[i]` for an arbitrary index `i` drawn by
the process-global random source (modelled as an unconstrained index
oracle, reduced modulo the pool size so that every behaviour of the source
is a valid index and every valid index is a possible behaviour).
-/

namespace MealPlanner

/-- A calendar date, as in Python's `datetime.date`: a (year, month, day)
triple in the proleptic Gregorian calendar. -/
structure PyDate where
  year : Nat
  month : Nat
  day : Nat
deriving DecidableEq, Repr

/-- Gregorian leap-year test, as in Python's `calendar.isleap` /
`datetime`'s `_is_leap`. -/
def isLeap (y : Nat) : Bool :=
  (y % 4 == 0 && y % 100 != 0) || y % 400 == 0

/-- Days in a month (`datetime`'s `_days_in_month`). -/
def daysInMonth (y m : Nat) : Nat :=
  if m = 2 then (if isLeap y then 29 else 28)
  else if m = 4 ∨ m = 6 ∨ m = 9 ∨ m = 11 then 30
  else 31

/-- Cumulative days before the start of month `m` in a non-leap year
(`datetime`'s `_DAYS_BEFORE_MONTH` table). -/
def daysBeforeMonthTable (m : Nat) : Nat :=
  if m ≤ 1 then 0 else if m = 2 then 31 else if m = 3 then 59
  else if m = 4 then 90 else if m = 5 then 120 else if m = 6 then 151
  else if m = 7 then 181 else if m = 8 then 212 else if m = 9 then 243
  else if m = 10 then 273 else if m = 11 then 304 else 334

/-- Days in year `y` before the start of month `m`
(`datetime`'s `_days_before_month`). -/
def daysBeforeMonth (y m : Nat) : Nat :=
  daysBeforeMonthTable m + (if 3 ≤ m ∧ isLeap y then 1 else 0)

/-- Days before January 1st of year `y`
(`datetime`'s `_days_before_year`). -/
def daysBeforeYear (y : Nat) : Nat :=
  (y - 1) * 365 + (y - 1) / 4 - (y - 1) / 100 + (y - 1) / 400

/-- A structurally valid calendar date (Python's `date` constructor checks
`1 ≤ month ≤ 12` and `1 ≤ day ≤ days_in_month`; years start at `MINYEAR = 1`).
The model leaves the year unbounded above: Python additionally caps it at
`MAXYEAR = 9999`, and the claims that depend on the cap carry it as an
explicit hypothesis. -/
def isValidDate (d : PyDate) : Prop :=
  1 ≤ d.year ∧ 1 ≤ d.month ∧ d.month ≤ 12 ∧ 1 ≤ d.day ∧ d.day ≤ daysInMonth d.year d.month

instance (d : PyDate) : Decidable (isValidDate d) := by
  unfold isValidDate; infer_instance

/-- Python's `date.toordinal()`: day number counting from 0001-01-01 = 1. -/
def toordinal (d : PyDate) : Nat :=
  daysBeforeYear d.year + daysBeforeMonth d.year d.month + d.day

/-- Python's `date.weekday()`: zero-based day of week, Monday = 0.
0001-01-01 (ordinal 1) is a Monday. -/
def weekday (d : PyDate) : Nat :=
  (toordinal d + 6) % 7

/-- The calendar day after `d` (`date + timedelta(days=1)`). -/
def nextDay (d : PyDate) : PyDate :=
  if d.day < daysInMonth d.year d.month then ⟨d.year, d.month, d.day + 1⟩
  else if d.month < 12 then ⟨d.year, d.month + 1, 1⟩
  else ⟨d.year + 1, 1, 1⟩

/-- The calendar day before `d` (`date - timedelta(days=1)`). -/
def prevDay (d : PyDate) : PyDate :=
  if 2 ≤ d.day then ⟨d.year, d.month, d.day - 1⟩
  else if 2 ≤ d.month then ⟨d.year, d.month - 1, daysInMonth d.year (d.month - 1)⟩
  else ⟨d.year - 1, 12, 31⟩

/-- `d + timedelta(days=n)` for `n ≥ 0`: `n`-fold calendar-day succession. -/
def addDays (d : PyDate) (n : Nat) : PyDate :=
  nextDay^[n] d

/-- `d - timedelta(days=n)` for `n ≥ 0`: `n`-fold calendar-day predecession. -/
def subDays (d : PyDate) (n : Nat) : PyDate :=
  prevDay^[n] d

/-- Numeric value of a decimal digit character (`'0'` ↦ 0, …, `'9'` ↦ 9). -/
def charVal (c : Char) : Nat := c.toNat - 48

/-- Python's `date.isoformat()`: the string `YYYY-MM-DD`, fields
zero-padded. -/
def isoformat (d : PyDate) : String :=
  ⟨[Nat.digitChar (d.year / 1000 % 10), Nat.digitChar (d.year / 100 % 10),
    Nat.digitChar (d.year / 10 % 10), Nat.digitChar (d.year % 10), '-',
    Nat.digitChar (d.month / 10 % 10), Nat.digitChar (d.month % 10), '-',
    Nat.digitChar (d.day / 10 % 10), Nat.digitChar (d.day % 10)]⟩

/-- The validating `date` constructor: `datetime.date(y, m, d)` checks
`MINYEAR ≤ y`, `1 ≤ m ≤ 12` and `1 ≤ d ≤ days_in_month(y, m)`, raising
`ValueError` (here `none`) otherwise. -/
def mkValidDate (y m dd : Nat) : Option PyDate :=
  if 1 ≤ y ∧ 1 ≤ m ∧ m ≤ 12 ∧ 1 ≤ dd ∧ dd ≤ daysInMonth y m then some ⟨y, m, dd⟩
  else none

/-- Modelled from the spec: Python's `datetime.date.fromisoformat` (stdlib,
not in `src/`).  Per the spec it attempts to parse an ISO-8601 calendar
date in the form `YYYY-MM-DD`; anything else raises `ValueError`, here
`none`.  The successful value is the parsed date when the three numeric
fields form a valid calendar date. -/
def date_fromisoformat (s : String) : Option PyDate :=
  match s.data with
  | [y1, y2, y3, y4, s1, m1, m2, s2, d1, d2] =>
    if s1 = '-' ∧ s2 = '-' ∧
       y1.isDigit ∧ y2.isDigit ∧ y3.isDigit ∧ y4.isDigit ∧
       m1.isDigit ∧ m2.isDigit ∧ d1.isDigit ∧ d2.isDigit then
      mkValidDate
        (1000 * charVal y1 + 100 * charVal y2 + 10 * charVal y3 + charVal y4)
        (10 * charVal m1 + charVal m2)
        (10 * charVal d1 + charVal d2)
    else none
  | _ => none

/-- Python's `calendar.day_name`, indexed by `weekday()` (Monday first). -/
def day_name : List String :=
  ["Monday", "Tuesday", "Wednesday", "Thursday", "Friday", "Saturday", "Sunday"]

/-- A stored recipe (`recipes.models.Recipe`); database-managed timestamps
are omitted as external state. -/
structure Recipe where
  name : String
  description : String
  ingredients : String
  instructions : String
  prepTimeMinutes : Option Nat
deriving DecidableEq, Repr

/-- A stored meal (`recipes.models.Meal`); the database-managed creation
timestamp is omitted as external state. -/
structure Meal where
  name : String
  recipe : Option Recipe
  notes : String
deriving DecidableEq, Repr

/-- `services.start_of_week`: `date - timedelta(days=date.weekday())`. -/
def start_of_week (date : PyDate) : PyDate :=
  subDays date (weekday date)

/-- `services.parse_week_start`: if the parameter is missing or empty
(`if not param`), fall back to `start_of_week(today)`; otherwise try
`date.fromisoformat` and fall back on failure (`except ValueError`). -/
def parse_week_start (param : Option String) (today : PyDate) : PyDate :=
  match param with
  | none => start_of_week today
  | some s =>
    if s = "" then start_of_week today
    else
      match date_fromisoformat s with
      | some d => d
      | none => start_of_week today

/-- The day label built inside `generate_weekly_plan`'s loop:
`f"{calendar.day_name[day.weekday()]} ({day.isoformat()})"`. -/
def dayLabel (day : PyDate) : String :=
  day_name.getD (weekday day) "" ++ " (" ++ isoformat day ++ ")"

/-- `services.generate_weekly_plan`.  `meals` is the materialized list
(`items = list(meals)`); `choices` is `items` if non-empty else `[None]`;
for each `i in range(7)` the entry is the day label paired with
`random.choice(choices)`.  The random source is the index oracle `rng`:
draw `i` selects `choices[rng i % len(choices)]`. -/
def generate_weekly_plan (meals : List Meal) (start : PyDate) (rng : Nat → Nat) :
    List (String × Option Meal) :=
  let choices : List (Option Meal) := if meals.isEmpty then [none] else meals.map some
  (List.range 7).map (fun i =>
    (dayLabel (addDays start i), choices.getD (rng i % choices.length) none))

/-! Calendar arithmetic lemmas: `toordinal` turns calendar-day succession
into `+ 1` on day numbers. -/

theorem isLeap_iff (y : Nat) :
    isLeap y = true ↔ ((y % 4 = 0 ∧ ¬ y % 100 = 0) ∨ y % 400 = 0) := by
  simp [isLeap]

theorem one_le_daysInMonth (y m : Nat) : 1 ≤ daysInMonth y m := by
  unfold daysInMonth
  split_ifs <;> omega

theorem isValidDate_mk (y m dd : Nat) :
    isValidDate ⟨y, m, dd⟩ ↔ 1 ≤ y ∧ 1 ≤ m ∧ m ≤ 12 ∧ 1 ≤ dd ∧ dd ≤ daysInMonth y m :=
  Iff.rfl

theorem toordinal_mk (y m dd : Nat) :
    toordinal ⟨y, m, dd⟩ = daysBeforeYear y + daysBeforeMonth y m + dd :=
  rfl

theorem daysBeforeMonth_succ (y m : Nat) (h1 : 1 ≤ m) (h2 : m ≤ 11) :
    daysBeforeMonth y (m + 1) = daysBeforeMonth y m + daysInMonth y m := by
  interval_cases m <;> cases hl : isLeap y <;>
    simp [daysBeforeMonth, daysBeforeMonthTable, daysInMonth, hl]

theorem daysBeforeYear_succ_arith (y : Nat) (h : 1 ≤ y) :
    daysBeforeYear (y + 1) =
      daysBeforeYear y +
        (if (y % 4 = 0 ∧ ¬ y % 100 = 0) ∨ y % 400 = 0 then 366 else 365) := by
  have e4 : y / 4 = (y - 1) / 4 + (if y % 4 = 0 then 1 else 0) := by
    split_ifs <;> omega
  have e100 : y / 100 = (y - 1) / 100 + (if y % 100 = 0 then 1 else 0) := by
    split_ifs <;> omega
  have e400 : y / 400 = (y - 1) / 400 + (if y % 400 = 0 then 1 else 0) := by
    split_ifs <;> omega
  unfold daysBeforeYear
  simp only [Nat.add_sub_cancel]
  rw [e4, e100, e400]
  split_ifs <;> omega

theorem daysBeforeYear_succ (y : Nat) (h : 1 ≤ y) :
    daysBeforeYear (y + 1) = daysBeforeYear y + (if isLeap y then 366 else 365) := by
  rw [daysBeforeYear_succ_arith y h]
  congr 1
  simp only [isLeap_iff]

theorem toordinal_nextDay (d : PyDate) (h : isValidDate d) :
    toordinal (nextDay d) = toordinal d + 1 := by
  obtain ⟨hy, hm1, hm2, hd1, hd2⟩ := h
  have hd' : toordinal d = daysBeforeYear d.year + daysBeforeMonth d.year d.month + d.day :=
    rfl
  unfold nextDay
  split
  · rename_i hday
    rw [toordinal_mk, hd']
    omega
  · rename_i hday
    split
    · rename_i hmo
      have hsucc := daysBeforeMonth_succ d.year d.month hm1 (by omega)
      rw [toordinal_mk, hd']
      omega
    · rename_i hmo
      have hm12 : d.month = 12 := by omega
      have hdim : daysInMonth d.year 12 = 31 := by simp [daysInMonth]
      have hby := daysBeforeYear_succ d.year hy
      have hbm1 : daysBeforeMonth (d.year + 1) 1 = 0 := by
        simp [daysBeforeMonth, daysBeforeMonthTable]
      have hbm12 : daysBeforeMonth d.year 12 = 334 + (if isLeap d.year then 1 else 0) := by
        cases hl : isLeap d.year <;>
          simp [daysBeforeMonth, daysBeforeMonthTable, hl]
      have hd31 : d.day = 31 := by
        rw [hm12] at hday hd2
        rw [hdim] at hday hd2
        omega
      rw [toordinal_mk, hd', hm12, hbm1, hbm12, hd31]
      split_ifs at hby ⊢ <;> omega

theorem isValidDate_nextDay (d : PyDate) (h : isValidDate d) :
    isValidDate (nextDay d) := by
  obtain ⟨hy, hm1, hm2, hd1, hd2⟩ := h
  have h1 : daysInMonth (d.year + 1) 1 = 31 := by simp [daysInMonth]
  have hpos := one_le_daysInMonth d.year (d.month + 1)
  unfold nextDay
  split
  · rw [isValidDate_mk]
    exact ⟨hy, hm1, hm2, by omega, by omega⟩
  · split
    · rw [isValidDate_mk]
      exact ⟨hy, by omega, by omega, by omega, by omega⟩
    · rw [isValidDate_mk]
      exact ⟨by omega, by omega, by omega, by omega, by omega⟩

theorem toordinal_pos (d : PyDate) (h : isValidDate d) : 1 ≤ toordinal d := by
  obtain ⟨hy, hm1, hm2, hd1, hd2⟩ := h
  have hd' : toordinal d = daysBeforeYear d.year + daysBeforeMonth d.year d.month + d.day :=
    rfl
  omega

theorem toordinal_addDays (d : PyDate) (n : Nat) (h : isValidDate d) :
    isValidDate (addDays d n) ∧ toordinal (addDays d n) = toordinal d + n := by
  induction n with
  | zero => exact ⟨h, rfl⟩
  | succ k ih =>
    obtain ⟨hv, ho⟩ := ih
    have hstep : addDays d (k + 1) = nextDay (addDays d k) := by
      unfold addDays
      exact Function.iterate_succ_apply' nextDay k d
    rw [hstep]
    exact ⟨isValidDate_nextDay _ hv, by rw [toordinal_nextDay _ hv]; omega⟩

theorem toordinal_prevDay (d : PyDate) (h : isValidDate d) (h2 : 2 ≤ toordinal d) :
    isValidDate (prevDay d) ∧ toordinal (prevDay d) = toordinal d - 1 := by
  obtain ⟨hy, hm1, hm2, hd1, hd2⟩ := h
  have hd' : toordinal d = daysBeforeYear d.year + daysBeforeMonth d.year d.month + d.day :=
    rfl
  unfold prevDay
  split
  · rename_i hday
    refine ⟨?_, ?_⟩
    · rw [isValidDate_mk]
      exact ⟨hy, hm1, hm2, by omega, by omega⟩
    · rw [toordinal_mk]
      omega
  · rename_i hday
    split
    · rename_i hmo
      have hsucc := daysBeforeMonth_succ d.year (d.month - 1) (by omega) (by omega)
      have hmm : d.month - 1 + 1 = d.month := by omega
      rw [hmm] at hsucc
      refine ⟨?_, ?_⟩
      · rw [isValidDate_mk]
        exact ⟨hy, by omega, by omega, one_le_daysInMonth _ _, le_refl _⟩
      · rw [toordinal_mk]
        omega
    · rename_i hmo
      have hm1' : d.month = 1 := by omega
      have hd1' : d.day = 1 := by omega
      have hbm1 : daysBeforeMonth d.year 1 = 0 := by
        simp [daysBeforeMonth, daysBeforeMonthTable]
      have hy2 : 2 ≤ d.year := by
        by_contra hc
        have hy1 : d.year = 1 := by omega
        rw [hd', hy1, hm1', hd1'] at h2
        simp [daysBeforeYear, daysBeforeMonth, daysBeforeMonthTable] at h2
      have hby := daysBeforeYear_succ (d.year - 1) (by omega)
      have hyy : d.year - 1 + 1 = d.year := by omega
      rw [hyy] at hby
      have hdim12 : daysInMonth (d.year - 1) 12 = 31 := by simp [daysInMonth]
      have hbm12 : daysBeforeMonth (d.year - 1) 12 =
          334 + (if isLeap (d.year - 1) then 1 else 0) := by
        cases hl : isLeap (d.year - 1) <;>
          simp [daysBeforeMonth, daysBeforeMonthTable, hl]
      refine ⟨?_, ?_⟩
      · rw [isValidDate_mk]
        exact ⟨by omega, by omega, by omega, by omega, by rw [hdim12]⟩
      · rw [toordinal_mk, hd', hm1', hd1', hbm1, hbm12]
        split_ifs at hby ⊢ <;> omega

theorem toordinal_subDays (d : PyDate) (h : isValidDate d) :
    ∀ n, n + 1 ≤ toordinal d →
      isValidDate (subDays d n) ∧ toordinal (subDays d n) = toordinal d - n := by
  intro n
  induction n with
  | zero => exact fun _ => ⟨h, rfl⟩
  | succ k ih =>
    intro hn
    obtain ⟨hv, ho⟩ := ih (by omega)
    have hstep : subDays d (k + 1) = prevDay (subDays d k) :=
      Function.iterate_succ_apply' prevDay k d
    have h2 : 2 ≤ toordinal (subDays d k) := by omega
    obtain ⟨hv', ho'⟩ := toordinal_prevDay _ hv h2
    rw [hstep]
    exact ⟨hv', by omega⟩

theorem weekday_lt_7 (d : PyDate) : weekday d < 7 :=
  Nat.mod_lt _ (by omega)

theorem weekday_succ_le (d : PyDate) (h : isValidDate d) :
    weekday d + 1 ≤ toordinal d := by
  have h1 := toordinal_pos d h
  unfold weekday
  omega

theorem start_of_week_spec (d : PyDate) (h : isValidDate d) :
    isValidDate (start_of_week d) ∧
      toordinal (start_of_week d) = toordinal d - weekday d ∧
      weekday (start_of_week d) = 0 := by
  have hb := weekday_succ_le d h
  obtain ⟨hv, ho⟩ := toordinal_subDays d h (weekday d) hb
  refine ⟨hv, ho, ?_⟩
  show (toordinal (subDays d (weekday d)) + 6) % 7 = 0
  rw [ho]
  have hw : weekday d = (toordinal d + 6) % 7 := rfl
  rw [hw] at hb ⊢
  omega

theorem start_of_week_idem (d : PyDate) (h : isValidDate d) :
    start_of_week (start_of_week d) = start_of_week d := by
  obtain ⟨hv, ho, hw⟩ := start_of_week_spec d h
  show subDays (start_of_week d) (weekday (start_of_week d)) = start_of_week d
  rw [hw]
  rfl

/-! Digit and ISO-string lemmas. -/

theorem daysInMonth_le_31 (y m : Nat) : daysInMonth y m ≤ 31 := by
  unfold daysInMonth
  split_ifs <;> omega

theorem mod10_lt (x : Nat) : x % 10 < 10 :=
  Nat.mod_lt _ (by omega)

theorem digitChar_isDigit (k : Nat) (h : k < 10) : (Nat.digitChar k).isDigit = true := by
  interval_cases k <;> decide

theorem charVal_digitChar (k : Nat) (h : k < 10) : charVal (Nat.digitChar k) = k := by
  unfold charVal
  interval_cases k <;> decide

theorem isDigit_toNat (c : Char) (h : c.isDigit = true) : 48 ≤ c.toNat ∧ c.toNat ≤ 57 := by
  simpa [Char.isDigit] using h

theorem charVal_lt_10 (c : Char) (h : c.isDigit = true) : charVal c < 10 := by
  obtain ⟨h1, h2⟩ := isDigit_toNat c h
  unfold charVal
  omega

theorem digitChar_charVal (c : Char) (h : c.isDigit = true) :
    Nat.digitChar (charVal c) = c := by
  obtain ⟨ha, hb⟩ := isDigit_toNat c h
  unfold charVal
  conv_rhs => rw [← Char.ofNat_toNat c]
  generalize hk : c.toNat = k at ha hb
  interval_cases k <;> decide

theorem fromisoformat_isoformat (d : PyDate) (h : isValidDate d) (hy : d.year ≤ 9999) :
    date_fromisoformat (isoformat d) = some d := by
  obtain ⟨hy1, hm1, hm2, hd1, hd2⟩ := h
  have hdm : d.day ≤ 31 := le_trans hd2 (daysInMonth_le_31 _ _)
  have hyv : 1000 * (d.year / 1000 % 10) + 100 * (d.year / 100 % 10) +
      10 * (d.year / 10 % 10) + d.year % 10 = d.year := by omega
  have hmv : 10 * (d.month / 10 % 10) + d.month % 10 = d.month := by omega
  have hdv : 10 * (d.day / 10 % 10) + d.day % 10 = d.day := by omega
  unfold isoformat date_fromisoformat mkValidDate
  simp only [charVal_digitChar, digitChar_isDigit, mod10_lt, hyv, hmv, hdv]
  simp [hy1, hm1, hm2, hd1, hd2]

theorem fromisoformat_eq_some (s : String) (d : PyDate) (h : date_fromisoformat s = some d) :
    isValidDate d ∧ d.year ≤ 9999 ∧ s = isoformat d := by
  obtain ⟨data⟩ := s
  unfold date_fromisoformat at h
  split at h
  · rename_i y1 y2 y3 y4 s1 m1 m2 s2 d1 d2 heq
    obtain rfl : data = [y1, y2, y3, y4, s1, m1, m2, s2, d1, d2] := heq
    split_ifs at h with hc
    obtain ⟨hs1, hs2, hy1, hy2, hy3, hy4, hm1, hm2, hd1, hd2⟩ := hc
    subst hs1
    subst hs2
    unfold mkValidDate at h
    split_ifs at h with hv
    have hd : d = ⟨1000 * charVal y1 + 100 * charVal y2 + 10 * charVal y3 + charVal y4,
        10 * charVal m1 + charVal m2, 10 * charVal d1 + charVal d2⟩ :=
      (Option.some.inj h).symm
    subst hd
    have cy1 := charVal_lt_10 y1 hy1
    have cy2 := charVal_lt_10 y2 hy2
    have cy3 := charVal_lt_10 y3 hy3
    have cy4 := charVal_lt_10 y4 hy4
    have cm1 := charVal_lt_10 m1 hm1
    have cm2 := charVal_lt_10 m2 hm2
    have cd1 := charVal_lt_10 d1 hd1
    have cd2 := charVal_lt_10 d2 hd2
    refine ⟨hv, by
      show 1000 * charVal y1 + 100 * charVal y2 + 10 * charVal y3 + charVal y4 ≤ 9999
      omega, ?_⟩
    unfold isoformat
    have e1 : (1000 * charVal y1 + 100 * charVal y2 + 10 * charVal y3 + charVal y4) /
        1000 % 10 = charVal y1 := by omega
    have e2 : (1000 * charVal y1 + 100 * charVal y2 + 10 * charVal y3 + charVal y4) /
        100 % 10 = charVal y2 := by omega
    have e3 : (1000 * charVal y1 + 100 * charVal y2 + 10 * charVal y3 + charVal y4) /
        10 % 10 = charVal y3 := by omega
    have e4 : (1000 * charVal y1 + 100 * charVal y2 + 10 * charVal y3 + charVal y4) %
        10 = charVal y4 := by omega
    have f1 : (10 * charVal m1 + charVal m2) / 10 % 10 = charVal m1 := by omega
    have f2 : (10 * charVal m1 + charVal m2) % 10 = charVal m2 := by omega
    have g1 : (10 * charVal d1 + charVal d2) / 10 % 10 = charVal d1 := by omega
    have g2 : (10 * charVal d1 + charVal d2) % 10 = charVal d2 := by omega
    show String.mk _ = String.mk _
    congr 1
    rw [e1, e2, e3, e4, f1, f2, g1, g2,
      digitChar_charVal y1 hy1, digitChar_charVal y2 hy2, digitChar_charVal y3 hy3,
      digitChar_charVal y4 hy4, digitChar_charVal m1 hm1, digitChar_charVal m2 hm2,
      digitChar_charVal d1 hd1, digitChar_charVal d2 hd2]
  · exact absurd h (by simp)

/-- Shared helper: `parse_week_start` returns the parsed date whenever
`date.fromisoformat` succeeds. -/
theorem parse_week_start_of_parse (s : String) (today d : PyDate)
    (h : date_fromisoformat s = some d) :
    parse_week_start (some s) today = d := by
  have hne : s ≠ "" := by
    intro he
    subst he
    have hnone : date_fromisoformat "" = none := by decide
    rw [hnone] at h
    cases h
  show (if s = "" then start_of_week today
    else match date_fromisoformat s with
      | some d => d
      | none => start_of_week today) = d
  rw [if_neg hne, h]

/-! Weekly plan generator lemmas. -/

theorem generate_length (meals : List Meal) (start : PyDate) (rng : Nat → Nat) :
    (generate_weekly_plan meals start rng).length = 7 := by
  unfold generate_weekly_plan
  simp

theorem generate_label (meals : List Meal) (start : PyDate) (rng : Nat → Nat)
    (i : Nat) (h : i < 7) :
    ((generate_weekly_plan meals start rng).getD i ("", none)).1 =
      dayLabel (addDays start i) := by
  unfold generate_weekly_plan
  interval_cases i <;> rfl

theorem generate_mem (meals : List Meal) (start : PyDate) (rng : Nat → Nat)
    (p : String × Option Meal) (hp : p ∈ generate_weekly_plan meals start rng) :
    ∃ i, i < 7 ∧ p = (dayLabel (addDays start i),
      (if meals.isEmpty then ([none] : List (Option Meal)) else meals.map some).getD
        (rng i %
          (if meals.isEmpty then ([none] : List (Option Meal)) else meals.map some).length)
        none) := by
  unfold generate_weekly_plan at hp
  simp only [List.mem_map, List.mem_range] at hp
  obtain ⟨i, hi, rfl⟩ := hp
  exact ⟨i, hi, rfl⟩

theorem generate_empty_entry (start : PyDate) (rng : Nat → Nat)
    (p : String × Option Meal) (hp : p ∈ generate_weekly_plan [] start rng) :
    p.2 = none := by
  obtain ⟨i, hi, rfl⟩ := generate_mem [] start rng p hp
  simp

theorem generate_singleton_entry (m : Meal) (start : PyDate) (rng : Nat → Nat)
    (p : String × Option Meal) (hp : p ∈ generate_weekly_plan [m] start rng) :
    p.2 = some m := by
  obtain ⟨i, hi, rfl⟩ := generate_mem [m] start rng p hp
  simp [Nat.mod_one]

theorem generate_entry_mem (meals : List Meal) (start : PyDate) (rng : Nat → Nat)
    (hne : meals ≠ []) (p : String × Option Meal)
    (hp : p ∈ generate_weekly_plan meals start rng) :
    ∃ m ∈ meals, p.2 = some m := by
  obtain ⟨i, hi, rfl⟩ := generate_mem meals start rng p hp
  have hie : meals.isEmpty = false := by
    cases meals with
    | nil => exact absurd rfl hne
    | cons a as => rfl
  have hpos : 0 < meals.length := List.length_pos.mpr hne
  have hlt : rng i % (meals.map some).length < (meals.map some).length := by
    rw [List.length_map]
    exact Nat.mod_lt _ hpos
  simp only [hie, Bool.false_eq_true, if_false]
  rw [List.getD_eq_getElem _ _ hlt, List.getElem_map]
  exact ⟨_, List.getElem_mem _, rfl⟩

example : weekday ⟨2024, 7, 10⟩ = 2 := by decide
example : start_of_week ⟨2024, 7, 10⟩ = ⟨2024, 7, 8⟩ := by decide
example : date_fromisoformat "2024-01-03" = some ⟨2024, 1, 3⟩ := by decide
example : date_fromisoformat "not-a-date" = none := by decide
example : isoformat ⟨2024, 7, 8⟩ = "2024-07-08" := by rfl
example : parse_week_start (some "2024-01-03") ⟨2024, 7, 10⟩ = ⟨2024, 1, 3⟩ := by decide
example : parse_week_start none ⟨2024, 7, 10⟩ = ⟨2024, 7, 8⟩ := by decide
example : dayLabel ⟨2024, 7, 8⟩ = "Monday (2024-07-08)" := by rfl

/-! The claims. -/

/-- Claim C1: for every meal collection (empty, singleton, or larger) and
every (valid) start date, `generate_weekly_plan` returns a plan of exactly
7 entries, where entry `i` (`i = 0..6`) carries the label of the calendar
day `start + i` days, and those 7 calendar days are in strictly ascending
date order (compared, as Python compares dates, by day number). -/
theorem C1_plan_seven_consecutive_days (meals : List Meal) (start : PyDate)
    (rng : Nat → Nat) (h : isValidDate start) :
    (generate_weekly_plan meals start rng).length = 7 ∧
    (∀ i, i < 7 → ((generate_weekly_plan meals start rng).getD i ("", none)).1 =
      dayLabel (addDays start i)) ∧
    (∀ i j, i < j → j < 7 →
      toordinal (addDays start i) < toordinal (addDays start j)) := by
  refine ⟨generate_length meals start rng,
    fun i hi => generate_label meals start rng i hi, ?_⟩
  intro i j hij hj
  have hoi := (toordinal_addDays start i h).2
  have hoj := (toordinal_addDays start j h).2
  omega

theorem C1_witness :
    ((generate_weekly_plan [] ⟨2024, 7, 8⟩ (fun _ => 0)).getD 2 ("", none)).1 =
      dayLabel (addDays ⟨2024, 7, 8⟩ 2) :=
  (C1_plan_seven_consecutive_days [] ⟨2024, 7, 8⟩ (fun _ => 0) (by decide)).2.1 2 (by decide)

/-- Claim C2: for every (valid) reference date `today`, `parse_week_start`
on absent (`none`) or empty input returns `today` minus its zero-based
weekday offset; that result has weekday offset 0 (Monday) and satisfies
`D ≤ today ≤ D + 6` days (order and distance expressed by day number). -/
theorem C2_missing_input_gives_monday (today : PyDate) (h : isValidDate today) :
    parse_week_start none today = subDays today (weekday today) ∧
    parse_week_start (some "") today = parse_week_start none today ∧
    weekday (parse_week_start none today) = 0 ∧
    toordinal (parse_week_start none today) ≤ toordinal today ∧
    toordinal today ≤ toordinal (parse_week_start none today) + 6 := by
  have hpw : parse_week_start none today = start_of_week today := rfl
  rw [hpw]
  obtain ⟨hv, ho, hw⟩ := start_of_week_spec today h
  have hb := weekday_succ_le today h
  have h7 := weekday_lt_7 today
  exact ⟨rfl, rfl, hw, by omega, by omega⟩

theorem C2_witness :
    parse_week_start none ⟨2024, 7, 10⟩ = subDays ⟨2024, 7, 10⟩ (weekday ⟨2024, 7, 10⟩) :=
  (C2_missing_input_gives_monday ⟨2024, 7, 10⟩ (by decide)).1

/-- Claim C3: whenever the raw string parses successfully as a date, and
for every reference date `today`, `parse_week_start` returns exactly the
parsed date, unmodified — it does not snap a valid explicit date to that
week's Monday. -/
theorem C3_valid_date_passthrough (s : String) (today d : PyDate)
    (h : date_fromisoformat s = some d) :
    parse_week_start (some s) today = d :=
  parse_week_start_of_parse s today d h

theorem C3_witness :
    parse_week_start (some "2024-01-03") ⟨2024, 7, 10⟩ = ⟨2024, 1, 3⟩ :=
  C3_valid_date_passthrough "2024-01-03" ⟨2024, 7, 10⟩ ⟨2024, 1, 3⟩ (by decide)

/-- Claim C4: for every raw input string whose parse fails (the model of
`parse_week_start` is a total function, so no error is ever raised or
propagated), the result is the Monday fallback `start_of_week today` —
exactly the same result as for absent input. -/
theorem C4_invalid_input_falls_back (s : String) (today : PyDate)
    (h : date_fromisoformat s = none) :
    parse_week_start (some s) today = start_of_week today ∧
    parse_week_start (some s) today = parse_week_start none today := by
  have hcase : parse_week_start (some s) today = start_of_week today := by
    by_cases he : s = ""
    · subst he
      rfl
    · show (if s = "" then start_of_week today
        else match date_fromisoformat s with
          | some d => d
          | none => start_of_week today) = start_of_week today
      rw [if_neg he, h]
  exact ⟨hcase, hcase⟩

theorem C4_witness :
    parse_week_start (some "not-a-date") ⟨2024, 7, 10⟩ = start_of_week ⟨2024, 7, 10⟩ :=
  (C4_invalid_input_falls_back "not-a-date" ⟨2024, 7, 10⟩ (by decide)).1

/-- Claim C5: when the selection pool has exactly one distinct selectable
element — a single meal for a singleton input list, or the `none` sentinel
for an empty input list — every one of the 7 entries selects that element,
for every behaviour of the random source; in particular the empty-input
plan has 7 entries, all with no meal. -/
theorem C5_single_element_pool_deterministic (m : Meal) (start : PyDate)
    (rng : Nat → Nat) :
    (∀ p ∈ generate_weekly_plan [m] start rng, p.2 = some m) ∧
    (generate_weekly_plan [] start rng).length = 7 ∧
    (∀ p ∈ generate_weekly_plan [] start rng, p.2 = none) :=
  ⟨fun p hp => generate_singleton_entry m start rng p hp,
   generate_length [] start rng,
   fun p hp => generate_empty_entry start rng p hp⟩

theorem C5_witness :
    ("Monday (2024-07-08)", (none : Option Meal)).2 = none :=
  (C5_single_element_pool_deterministic ⟨"Dinner", none, ""⟩ ⟨2024, 7, 8⟩
      (fun _ => 0)).2.2 ("Monday (2024-07-08)", none) (by decide)

/-- Claim C6: for every non-empty input meal list, every start date and
every behaviour of the random source, each entry's selected meal is a
member of the input list, and no entry is the `none` sentinel. -/
theorem C6_selection_from_pool (meals : List Meal) (start : PyDate) (rng : Nat → Nat)
    (hne : meals ≠ []) :
    ∀ p ∈ generate_weekly_plan meals start rng,
      (∃ m ∈ meals, p.2 = some m) ∧ p.2 ≠ none := by
  intro p hp
  obtain ⟨m, hm, he⟩ := generate_entry_mem meals start rng hne p hp
  refine ⟨⟨m, hm, he⟩, ?_⟩
  rw [he]
  simp

theorem C6_witness :
    (∃ m ∈ [(⟨"Dinner", none, ""⟩ : Meal)],
      ("Monday (2024-07-08)", some (⟨"Dinner", none, ""⟩ : Meal)).2 = some m) ∧
    ("Monday (2024-07-08)", some (⟨"Dinner", none, ""⟩ : Meal)).2 ≠ none :=
  C6_selection_from_pool [⟨"Dinner", none, ""⟩] ⟨2024, 7, 8⟩ (fun _ => 0) (by decide)
    ("Monday (2024-07-08)", some ⟨"Dinner", none, ""⟩) (by decide)

/-- Claim C7: entry `i`'s label is exactly the full English weekday name of
`start + i` days followed by a space and that date's ISO-8601 form in
parentheses; the label sequence and plan length are functions of `start`
alone, identical across calls regardless of meal pool and random draws. -/
theorem C7_labels_function_of_start (meals : List Meal) (start : PyDate)
    (rng : Nat → Nat) :
    (∀ i, i < 7 → ((generate_weekly_plan meals start rng).getD i ("", none)).1 =
      day_name.getD (weekday (addDays start i)) "" ++ " (" ++
        isoformat (addDays start i) ++ ")") ∧
    ∀ (meals2 : List Meal) (rng2 : Nat → Nat),
      (generate_weekly_plan meals start rng).map Prod.fst =
        (generate_weekly_plan meals2 start rng2).map Prod.fst ∧
      (generate_weekly_plan meals start rng).length =
        (generate_weekly_plan meals2 start rng2).length := by
  refine ⟨fun i hi => generate_label meals start rng i hi, fun meals2 rng2 => ⟨?_, ?_⟩⟩
  · rfl
  · rfl

theorem C7_witness :
    ((generate_weekly_plan [] ⟨2024, 7, 8⟩ (fun _ => 0)).getD 0 ("", none)).1 =
      day_name.getD (weekday (addDays ⟨2024, 7, 8⟩ 0)) "" ++ " (" ++
        isoformat (addDays ⟨2024, 7, 8⟩ 0) ++ ")" :=
  (C7_labels_function_of_start [] ⟨2024, 7, 8⟩ (fun _ => 0)).1 0 (by decide)

/-- Claim C8: for every raw string, the parse attempt of `parse_week_start`
succeeds exactly when the string is a valid ISO-8601 calendar date in the
form `YYYY-MM-DD`, i.e. the ISO form of some valid calendar date; all other
strings are parse failures (and take the fallback path). -/
theorem C8_parse_succeeds_iff_iso_date (s : String) :
    (date_fromisoformat s).isSome = true ↔
      ∃ d : PyDate, isValidDate d ∧ d.year ≤ 9999 ∧ s = isoformat d := by
  constructor
  · intro hs
    cases hd : date_fromisoformat s with
    | none => rw [hd] at hs; cases hs
    | some d =>
      obtain ⟨hv, hy, he⟩ := fromisoformat_eq_some s d hd
      exact ⟨d, hv, hy, he⟩
  · rintro ⟨d, hv, hy, rfl⟩
    rw [fromisoformat_isoformat d hv hy]
    rfl

/-- Claim C9: `start_of_week` is idempotent on valid dates, and the
fallback result `parse_week_start none today` is a fixed point of
`start_of_week`. -/
theorem C9_start_of_week_idempotent (d : PyDate) (h : isValidDate d) :
    start_of_week (start_of_week d) = start_of_week d ∧
    start_of_week (parse_week_start none d) = parse_week_start none d :=
  ⟨start_of_week_idem d h, start_of_week_idem d h⟩

theorem C9_witness :
    start_of_week (start_of_week ⟨2024, 7, 10⟩) = start_of_week ⟨2024, 7, 10⟩ :=
  (C9_start_of_week_idempotent ⟨2024, 7, 10⟩ (by decide)).1

/-- Claim C10: round-trip through the resolver — for every valid date `d`
(within Python's year range) and every reference date `today`,
`parse_week_start (some d.isoformat()) today = d`, independent of
`today`. -/
theorem C10_isoformat_roundtrip (d today : PyDate) (h : isValidDate d)
    (hy : d.year ≤ 9999) :
    parse_week_start (some (isoformat d)) today = d :=
  parse_week_start_of_parse _ today d (fromisoformat_isoformat d h hy)

theorem C10_witness :
    parse_week_start (some (isoformat ⟨2024, 1, 3⟩)) ⟨2024, 7, 10⟩ = ⟨2024, 1, 3⟩ :=
  C10_isoformat_roundtrip ⟨2024, 1, 3⟩ ⟨2024, 7, 10⟩ (by decide) (by decide)

end MealPlanner
